import Mathlib

/-!
Shallow embedding of `src/google-map-extractor/src/app/api/search/route.ts`
(the Google Places search route: pagination walker, batched detail
enrichment and record normalisation), together with theorems settling the
specification claims about it.

Modelling conventions:
* JavaScript optional / possibly-`undefined` fields become `Option` values;
  the nullish-coalescing operator `a ?? b` becomes
  `a.orElse (fun _ => b)` / `Option.getD`, which like `??` falls through
  only on `undefined`/`null`, never on the empty string.
* The coordinate numbers are modelled as integers: the route never computes
  with them, it only copies them between records and interpolates them into
  strings, and integer literals print identically in both languages.
* The `maxResults` request field is modelled by `JsValue`: a rational
  number, the distinguished `NaN` value, or any non-number JSON value
  (`other`).  IEEE infinities are outside the model; the route only floors
  and clamps the value.
* The two remote Google endpoints are abstracted by transcripts: the list
  of responses the text-search endpoint returns to the successive page
  requests, and a function giving the details-endpoint response to the
  fetch issued for the i-th trimmed summary.  Request URLs, the credential
  and the 2000 ms inter-page delay are plumbing to the network layer and
  are not observable in the model.
* `async`/`await` control flow is sequentialised.  `Promise.all` over a
  batch is modelled by evaluating the batch left to right with the first
  rejection winning; every batch member still contributes its own response.
-/

/-- JS shape of one text-search result (`TextSearchPlace` in the route). -/
structure LatLng where
  lat : Option Int
  lng : Option Int
  deriving DecidableEq

/-- JS shape `geometry` with its optional `location`. -/
structure Geometry where
  location : Option LatLng
  deriving DecidableEq

/-- One entry of a text-search page (`TextSearchPlace`). -/
structure TextSearchPlace where
  place_id : String
  name : Option String
  formatted_address : Option String
  business_status : Option String
  geometry : Option Geometry
  types : Option (List String)
  deriving DecidableEq

/-- Payload of a place-details lookup (`PlaceDetails`). -/
structure PlaceDetails where
  name : Option String
  formatted_phone_number : Option String
  international_phone_number : Option String
  formatted_address : Option String
  url : Option String
  website : Option String
  business_status : Option String
  geometry : Option Geometry
  types : Option (List String)
  deriving DecidableEq

/-- The normalised output record (`PlaceRecord`). -/
structure PlaceRecord where
  name : String
  formattedAddress : String
  phoneNumber : Option String
  googleMapsUrl : Option String
  website : Option String
  latitude : Option Int
  longitude : Option Int
  businessStatus : Option String
  types : Option (List String)
  deriving DecidableEq

/-- `const MAX_TOTAL_RESULTS = 60`. -/
def MAX_TOTAL_RESULTS : Nat := 60

/-- The empty object `{}` substituted for absent details (`details ?? {}`):
every field reads as `undefined`. -/
def emptyDetails : PlaceDetails :=
  { name := none, formatted_phone_number := none, international_phone_number := none,
    formatted_address := none, url := none, website := none, business_status := none,
    geometry := none, types := none }

/-- The optional-chain `g?.location?.lat`. -/
def geomLat (g : Option Geometry) : Option Int :=
  (g.bind Geometry.location).bind LatLng.lat

/-- The optional-chain `g?.location?.lng`. -/
def geomLng (g : Option Geometry) : Option Int :=
  (g.bind Geometry.location).bind LatLng.lng

/-- The template literal building the fallback Google-Maps search URL from
the merged coordinates and the summary's `place_id`. -/
def mapsSearchUrl (lat lng : Int) (placeId : String) : String :=
  "https://www.google.com/maps/search/?api=1&query=" ++ toString lat ++ "," ++
    toString lng ++ "&query_place_id=" ++ placeId

/-- The merge function `toRecord(summary, details?)` of the route, line for
line: `??` is `orElse`/`getD`, the `phone || undefined` coercion is the
emptiness test on the selected phone string. -/
def toRecord (summary : TextSearchPlace) (details : Option PlaceDetails) : PlaceRecord :=
  let source := details.getD emptyDetails
  let phone :=
    (source.formatted_phone_number.orElse fun _ => source.international_phone_number).getD ""
  let lat := (geomLat source.geometry).orElse fun _ => geomLat summary.geometry
  let lng := (geomLng source.geometry).orElse fun _ => geomLng summary.geometry
  let googleMapsUrl := source.url.orElse fun _ =>
    match lat, lng with
    | some la, some ln => some (mapsSearchUrl la ln summary.place_id)
    | _, _ => none
  { name := (source.name.orElse fun _ => summary.name).getD "Unknown"
    formattedAddress :=
      (source.formatted_address.orElse fun _ => summary.formatted_address).getD
        "Address unavailable"
    phoneNumber := if phone = "" then none else some phone
    googleMapsUrl := googleMapsUrl
    website := source.website
    latitude := lat
    longitude := lng
    businessStatus := source.business_status.orElse fun _ => summary.business_status
    types := source.types.orElse fun _ => summary.types }

/-- A JSON value observed through the two tests the route performs on
`maxResults`: `typeof raw !== "number"` (constructor `other`),
`Number.isNaN(raw)` (constructor `nan`), or a finite number. -/
inductive JsValue where
  | num (x : ℚ)
  | nan
  | other
  deriving DecidableEq

/-- `sanitizeMaxResults` of the route. -/
def sanitizeMaxResults : JsValue → Int
  | .other => (MAX_TOTAL_RESULTS : Int)
  | .nan => (MAX_TOTAL_RESULTS : Int)
  | .num x => min (MAX_TOTAL_RESULTS : Int) (max 1 ⌊x⌋)

/-- Whether `pat` is a prefix of `l` (character lists). -/
def listHasPrefix : List Char → List Char → Bool
  | [], _ => true
  | _ :: _, [] => false
  | p :: ps, c :: cs => p == c && listHasPrefix ps cs

/-- Whether `pat` occurs as a contiguous run inside `l`. -/
def listIncludes (pat : List Char) : List Char → Bool
  | [] => pat.isEmpty
  | c :: cs => listHasPrefix pat (c :: cs) || listIncludes pat cs

/-- JS `s.includes(pat)`: substring occurrence, case-sensitive. -/
def strIncludes (s pat : String) : Bool :=
  listIncludes pat.data s.data

/-- JS truthiness of the optional `next_page_token` string. -/
def optTruthy : Option String → Bool
  | none => false
  | some s => s != ""

/-- JS `s.trim()`: strips leading and trailing whitespace.  Implemented
structurally over the character list so that concrete runs evaluate. -/
def jsTrim (s : String) : String :=
  String.mk
    (((s.data.dropWhile Char.isWhitespace).reverse.dropWhile Char.isWhitespace).reverse)

/-- The details-endpoint response to one fetch: a non-OK transport response
(`!response.ok`), or a JSON payload with its business `status`, optional
`error_message` and optional `result`. -/
inductive DetailResponse where
  | transportError
  | payload (status : String) (error_message : Option String) (result : Option PlaceDetails)
  deriving DecidableEq

/-- The quota-exceeded message thrown by both fetch helpers. -/
def quotaMessage : String :=
  "Google Places quota exceeded. Wait before trying again or adjust your API usage."

/-- `fetchPlaceDetails` of the route: transport failure is absent detail;
`OK` yields the payload; `NOT_FOUND`/`ZERO_RESULTS` yield absent;
`OVER_QUERY_LIMIT` throws the quota message; anything else throws
`error_message` or the generic details-status message. -/
def fetchPlaceDetails : DetailResponse → Except String (Option PlaceDetails)
  | .transportError => .ok none
  | .payload status em result =>
    if status = "OK" then .ok result
    else if status = "NOT_FOUND" || status = "ZERO_RESULTS" then .ok none
    else if status = "OVER_QUERY_LIMIT" then .error quotaMessage
    else .error (em.getD ("Google Places Details returned status " ++ status))

/-- One batch member of the orchestrator: `fetchPlaceDetails` wrapped in the
`try`/`catch` that rethrows only errors whose message contains
`"quota exceeded"` or `"Request denied"` and absorbs every other failure as
absent detail. -/
def chunkFetch (r : DetailResponse) : Except String (Option PlaceDetails) :=
  match fetchPlaceDetails r with
  | .ok d => .ok d
  | .error m =>
    if strIncludes m "quota exceeded" || strIncludes m "Request denied" then .error m
    else .ok none

/-- Whether a details response makes its batch member rethrow (the fetch is
fatal for the whole orchestration). -/
def fatalFetch (r : DetailResponse) : Bool :=
  match chunkFetch r with
  | .ok _ => false
  | .error _ => true

/-- The detail value a non-fatal batch member contributes to
`detailsList`. -/
def absorbedDetail (r : DetailResponse) : Option PlaceDetails :=
  match chunkFetch r with
  | .ok d => d
  | .error _ => none

/-- The text-search endpoint's response to one page request: a non-OK
transport response with its HTTP status, or a JSON payload with business
`status`, optional `error_message`, the `results` list and the optional
`next_page_token`. -/
inductive SearchResponse where
  | transportError (httpStatus : Nat)
  | payload (status : String) (error_message : Option String)
      (results : List TextSearchPlace) (next_page_token : Option String)
  deriving DecidableEq

/-- `fetchTextSearchPage` of the route. -/
def fetchTextSearchPage :
    SearchResponse → Except String (List TextSearchPlace × Option String)
  | .transportError httpStatus =>
    .error ("Text search failed with status " ++ toString httpStatus)
  | .payload status em results tok =>
    if status = "OK" || status = "ZERO_RESULTS" then .ok (results, tok)
    else if status = "OVER_QUERY_LIMIT" then .error quotaMessage
    else if status = "REQUEST_DENIED" || status = "INVALID_REQUEST" then
      .error (em.getD ("Request denied: " ++ status))
    else .error (em.getD ("Unexpected status: " ++ status))

/-- Outcome of the route's `do`/`while` page loop.  `pending` marks the
out-of-model situation in which the finite response transcript is exhausted
while the loop would issue one more request. -/
inductive WalkerOutcome where
  | done (summaries : List TextSearchPlace)
  | fail (msg : String)
  | pending (acc : List TextSearchPlace)
  deriving DecidableEq

/-- The page loop of `POST`: fetch a page, append its results, and repeat
while the continuation token is truthy and the accumulated count is below
both the sanitised cap and `MAX_TOTAL_RESULTS`.  The 2000 ms wait before a
token-bearing request only paces the remote calls and is not observable
here. -/
def walkerGo (cleanMax : Nat) :
    List TextSearchPlace → List SearchResponse → WalkerOutcome
  | acc, [] => .pending acc
  | acc, r :: rest =>
    match fetchTextSearchPage r with
    | .error m => .fail m
    | .ok (results, tok) =>
      if optTruthy tok ∧ (acc ++ results).length < cleanMax ∧
          (acc ++ results).length < MAX_TOTAL_RESULTS then
        walkerGo cleanMax (acc ++ results) rest
      else .done (acc ++ results)

/-- `Promise.all` over one chunk: each member runs `chunkFetch` on its own
response (the response for global index `i` comes from the oracle); the
first rejection in order aborts the batch, otherwise the list of absorbed
details is produced. -/
def chunkResults (oracle : Nat → DetailResponse) :
    List TextSearchPlace → Nat → Except String (List (Option PlaceDetails))
  | [], _ => .ok []
  | _ :: rest, i =>
    match chunkFetch (oracle i) with
    | .error m => .error m
    | .ok d =>
      match chunkResults oracle rest (i + 1) with
      | .error m => .error m
      | .ok ds => .ok (d :: ds)

/-- The record list the orchestration produces when nothing is fatal: the
i-th summary merged with the absorbed detail of the i-th fetch. -/
def enrichAll (oracle : Nat → DetailResponse) :
    List TextSearchPlace → Nat → List PlaceRecord
  | [], _ => []
  | s :: rest, i => toRecord s (absorbedDetail (oracle i)) :: enrichAll oracle rest (i + 1)

/-- The batching `for`-loop of `POST` over the trimmed summaries, stepped in
chunks of 5.  The `fuel` argument bounds the number of loop iterations; the
loop advances its index by 5 each round, so `fuel := l.length` (as used by
`orchestrateGo`) always suffices and the `fuel = 0` row with a non-empty
list is unreachable. -/
def orchestrateAux (oracle : Nat → DetailResponse) :
    Nat → List TextSearchPlace → Nat → Except String (List PlaceRecord)
  | 0, _, _ => .ok []
  | fuel + 1, l, i =>
    match l with
    | [] => .ok []
    | _ :: _ =>
      match chunkResults oracle (l.take 5) i with
      | .error m => .error m
      | .ok ds =>
        match orchestrateAux oracle fuel (l.drop 5) (i + 5) with
        | .error m => .error m
        | .ok more => .ok (List.zipWith toRecord (l.take 5) ds ++ more)

/-- The enrichment orchestrator of `POST` (`chunkSize = 5`). -/
def orchestrateGo (oracle : Nat → DetailResponse) (l : List TextSearchPlace)
    (i : Nat) : Except String (List PlaceRecord) :=
  orchestrateAux oracle l.length l i

/-- The JSON body of the inbound request, observed through the route's
checks: `apiKey`/`query`/`location` are `none` when absent or not a string.
-/
structure RequestBody where
  apiKey : Option String
  query : Option String
  location : Option String
  maxResults : JsValue
  deriving DecidableEq

/-- Whether the body passes the two validation checks of `POST`. -/
def requestValid (b : RequestBody) : Bool :=
  match b.apiKey with
  | none => false
  | some k =>
    if jsTrim k = "" then false
    else
      match b.query with
      | none => false
      | some q => jsTrim q != ""

/-- The composed search query: `"<query> in <location>"` when a non-blank
location string is supplied, else the query unchanged.  It parameterises the
remote page requests, which the transcript abstracts. -/
def composedQuery (query : String) (location : Option String) : String :=
  match location with
  | some loc => if jsTrim loc != "" then query ++ " in " ++ loc else query
  | none => query

/-- The route's HTTP response: `ok` is the 200 `{ results }` body, `error`
is a non-2xx `{ error }` body, `pending` marks an exhausted page
transcript (out of model). -/
inductive ApiResult where
  | ok (results : List PlaceRecord)
  | error (httpStatus : Nat) (message : String)
  | pending (acc : List TextSearchPlace)
  deriving DecidableEq

/-- The `POST` handler: validation, sanitised cap, page loop, trim to the
cap, batched enrichment; any thrown error surfaces as a 500 `{ error }`
with the error's message and no results. -/
def POST (body : RequestBody) (pages : List SearchResponse)
    (oracle : Nat → DetailResponse) : ApiResult :=
  match body.apiKey with
  | none => .error 400 "API key is required."
  | some k =>
    if jsTrim k = "" then .error 400 "API key is required."
    else
      match body.query with
      | none => .error 400 "Search keyword is required."
      | some q =>
        if jsTrim q = "" then .error 400 "Search keyword is required."
        else
          let cleanMax := (sanitizeMaxResults body.maxResults).toNat
          match walkerGo cleanMax [] pages with
          | .pending acc => .pending acc
          | .fail m => .error 500 m
          | .done summaries =>
            match orchestrateGo oracle (summaries.take cleanMax) 0 with
            | .error m => .error 500 m
            | .ok records => .ok records

/-- The sanitised cap `POST` computes from the body. -/
def cleanMaxOf (b : RequestBody) : Nat := (sanitizeMaxResults b.maxResults).toNat

/-- A text-search response carrying the quota-exceeded business status. -/
def isQuotaSearchPage (r : SearchResponse) : Prop :=
  ∃ em results tok, r = SearchResponse.payload "OVER_QUERY_LIMIT" em results tok

/-- The run's page transcript answers one of the walker's requests with a
quota-exceeded page: the responses before it leave the loop still running. -/
def SearchQuotaHit (cleanMax : Nat) (pages : List SearchResponse) : Prop :=
  ∃ pre r rest acc, pages = pre ++ r :: rest ∧ isQuotaSearchPage r ∧
    walkerGo cleanMax [] pre = WalkerOutcome.pending acc

/-- A details response carrying the quota-exceeded business status. -/
def isQuotaDetail (r : DetailResponse) : Prop :=
  ∃ em result, r = DetailResponse.payload "OVER_QUERY_LIMIT" em result

/-- The run's search completes, some issued detail fetch is answered with a
quota-exceeded status, and every fatal detail response of the run is the
quota error (so the rate-limit failure is the one in play). -/
def DetailQuotaHit (cleanMax : Nat) (pages : List SearchResponse)
    (oracle : Nat → DetailResponse) : Prop :=
  ∃ summaries, walkerGo cleanMax [] pages = WalkerOutcome.done summaries ∧
    (∃ i, i < (summaries.take cleanMax).length ∧ isQuotaDetail (oracle i)) ∧
    (∀ j, j < (summaries.take cleanMax).length → fatalFetch (oracle j) = true →
      chunkFetch (oracle j) = Except.error quotaMessage)

/-! Concrete fixtures used by witnesses and counterexamples. -/

/-- A summary carrying no optional data at all. -/
def bareSummary : TextSearchPlace :=
  { place_id := "p", name := none, formatted_address := none, business_status := none,
    geometry := none, types := none }

/-- A details payload whose `name` field is present but empty. -/
def emptyNameDetails : PlaceDetails :=
  { emptyDetails with name := some "" }

/-- A details payload with an empty primary phone and a usable secondary
phone. -/
def emptyPrimaryPhoneDetails : PlaceDetails :=
  { emptyDetails with
    formatted_phone_number := some "", international_phone_number := some "123" }

/-- A summary with a complete coordinate pair (3, 4). -/
def summaryWithCoords : TextSearchPlace :=
  { bareSummary with geometry := some { location := some { lat := some 3, lng := some 4 } } }

/-- A details payload whose location has a latitude but no longitude. -/
def latOnlyDetails : PlaceDetails :=
  { emptyDetails with geometry := some { location := some { lat := some 1, lng := none } } }

/-- A summary with identifier `"p1"` and coordinates (1, 2). -/
def summaryP1 : TextSearchPlace :=
  { bareSummary with
    place_id := "p1",
    geometry := some { location := some { lat := some 1, lng := some 2 } } }

/-- A details response reporting the access-denied business status with no
error message. -/
def deniedDetailResponse : DetailResponse :=
  DetailResponse.payload "REQUEST_DENIED" none none

/-! Claim theorems. -/

/-- C9: `sanitizeMaxResults` always yields an integer in `[1, 60]`, is
idempotent, maps non-numeric and `NaN` inputs to the default 60, and clamps
every numeric input to `[1, 60]` using floor. -/
theorem sanitizeMaxResults_idempotent_and_clamped (v : JsValue) :
    1 ≤ sanitizeMaxResults v ∧ sanitizeMaxResults v ≤ 60 ∧
    sanitizeMaxResults (JsValue.num ((sanitizeMaxResults v : Int) : ℚ)) =
      sanitizeMaxResults v ∧
    sanitizeMaxResults JsValue.nan = 60 ∧
    sanitizeMaxResults JsValue.other = 60 ∧
    (∀ x : ℚ, sanitizeMaxResults (JsValue.num x) = min 60 (max 1 ⌊x⌋)) := by
  have hrange : ∀ w : JsValue, 1 ≤ sanitizeMaxResults w ∧ sanitizeMaxResults w ≤ 60 := by
    intro w
    cases w <;> simp only [sanitizeMaxResults, MAX_TOTAL_RESULTS] <;>
      constructor <;> omega
  obtain ⟨h1, h60⟩ := hrange v
  refine ⟨h1, h60, ?_, rfl, rfl, fun x => rfl⟩
  show min (MAX_TOTAL_RESULTS : Int) (max 1 ⌊((sanitizeMaxResults v : Int) : ℚ)⌋) = _
  rw [Int.floor_intCast]
  simp only [MAX_TOTAL_RESULTS] at *
  omega

/-- C9 witness: applying the theorem at the concrete input 100. -/
theorem sanitizeMaxResults_idempotent_and_clamped_witness :
    sanitizeMaxResults (JsValue.num ((sanitizeMaxResults (JsValue.num 100) : Int) : ℚ)) =
      sanitizeMaxResults (JsValue.num 100) :=
  (sanitizeMaxResults_idempotent_and_clamped (JsValue.num 100)).2.2.1

/-- C3 counterexample: with an empty-string detail name and a nameless
summary, the merged record's `name` is the empty string, not the sentinel:
nullish coalescing tests presence only, never emptiness. -/
theorem toRecord_name_empty_cex :
    (toRecord bareSummary (some emptyNameDetails)).name = "" ∧
    (toRecord bareSummary (some emptyNameDetails)).name ≠ "Unknown" := by
  refine ⟨rfl, ?_⟩
  decide

/-- C3 amended: name precedence is decided by field presence (nullish
coalescing), not emptiness: the detail's name wins whenever the field is
present, even when empty, else the summary's name when present, else the
sentinel `"Unknown"`; the result is non-empty whenever every present name
field is non-empty. -/
theorem toRecord_name_precedence (s : TextSearchPlace) (d : PlaceDetails)
    (hd : ∀ y, d.name = some y → y ≠ "") (hs : ∀ y, s.name = some y → y ≠ "") :
    (toRecord s (some d)).name = d.name.getD (s.name.getD "Unknown") ∧
    (toRecord s none).name = s.name.getD "Unknown" ∧
    (toRecord s (some d)).name ≠ "" ∧ (toRecord s none).name ≠ "" := by
  have hsome : (toRecord s (some d)).name = (d.name.orElse fun _ => s.name).getD "Unknown" :=
    rfl
  have hnone : (toRecord s none).name = s.name.getD "Unknown" := rfl
  have hcase : (toRecord s (some d)).name = d.name.getD (s.name.getD "Unknown") := by
    rw [hsome]
    cases d.name <;> rfl
  have hnenone : (toRecord s none).name ≠ "" := by
    rw [hnone]
    cases hsn : s.name with
    | none => decide
    | some y => exact hs y hsn
  refine ⟨hcase, hnone, ?_, hnenone⟩
  rw [hcase]
  cases hdn : d.name with
  | some y => exact hd y hdn
  | none =>
    rw [Option.getD_none]
    rw [← hnone]
    exact hnenone

/-- C3 amended witness: with both name fields absent the record's name is
the non-empty sentinel. -/
theorem toRecord_name_precedence_witness :
    (toRecord bareSummary (some emptyDetails)).name = "Unknown" ∧
    (toRecord bareSummary (some emptyDetails)).name ≠ "" := by
  have h := toRecord_name_precedence bareSummary emptyDetails
    (fun y hy => by cases hy) (fun y hy => by cases hy)
  exact ⟨h.1, h.2.2.1⟩

/-- C5 counterexample: an empty primary phone does not fall through to the
secondary phone (`??` only falls through on `undefined`/`null`); the
record's phone ends up absent even though the secondary phone is present
and non-empty. -/
theorem toRecord_phone_skips_secondary_cex :
    emptyPrimaryPhoneDetails.formatted_phone_number = some "" ∧
    emptyPrimaryPhoneDetails.international_phone_number = some "123" ∧
    (toRecord bareSummary (some emptyPrimaryPhoneDetails)).phoneNumber = none ∧
    (toRecord bareSummary (some emptyPrimaryPhoneDetails)).phoneNumber ≠ some "123" := by
  refine ⟨rfl, rfl, rfl, ?_⟩
  decide

/-- C5 amended: the phone is the detail's primary number when that field is
present (an empty primary blocks the secondary and is coerced to absent);
when the primary is absent, the secondary when present and non-empty, else
absent; it is never derived from the summary. -/
theorem toRecord_phone_precedence (s s' : TextSearchPlace) (d : PlaceDetails)
    (p : String) :
    (d.formatted_phone_number = some p → p ≠ "" →
      (toRecord s (some d)).phoneNumber = some p) ∧
    (d.formatted_phone_number = some "" →
      (toRecord s (some d)).phoneNumber = none) ∧
    (d.formatted_phone_number = none → d.international_phone_number = some p →
      p ≠ "" → (toRecord s (some d)).phoneNumber = some p) ∧
    (d.formatted_phone_number = none → d.international_phone_number = none →
      (toRecord s (some d)).phoneNumber = none) ∧
    (toRecord s none).phoneNumber = none ∧
    (toRecord s (some d)).phoneNumber = (toRecord s' (some d)).phoneNumber := by
  have key : ∀ t : TextSearchPlace, (toRecord t (some d)).phoneNumber =
      (if ((d.formatted_phone_number.orElse fun _ =>
        d.international_phone_number).getD "") = "" then none
       else some ((d.formatted_phone_number.orElse fun _ =>
        d.international_phone_number).getD "")) := fun _ => rfl
  refine ⟨?_, ?_, ?_, ?_, rfl, (key s).trans (key s').symm⟩
  · intro h hne
    rw [key, h]
    simp only [Option.orElse, Option.getD_some]
    rw [if_neg hne]
  · intro h
    rw [key, h]
    rfl
  · intro h1 h2 hne
    rw [key, h1, h2]
    simp only [Option.orElse, Option.getD_some]
    rw [if_neg hne]
  · intro h1 h2
    rw [key, h1, h2]
    rfl

/-- C5 amended witness: a present non-empty primary phone is kept. -/
theorem toRecord_phone_precedence_witness :
    (toRecord bareSummary
      (some { emptyDetails with formatted_phone_number := some "555" })).phoneNumber =
      some "555" :=
  (toRecord_phone_precedence bareSummary bareSummary
    { emptyDetails with formatted_phone_number := some "555" } "555").1 rfl (by decide)

/-- C6 counterexample: the two coordinates fall back independently, so one
record can mix a detail latitude with a summary longitude; here the detail
supplies only a latitude and the output pair is (1, 4), which is neither
the detail's pair nor the summary's pair (3, 4). -/
theorem toRecord_coordinates_mixed_cex :
    geomLat latOnlyDetails.geometry = some 1 ∧
    geomLng latOnlyDetails.geometry = none ∧
    geomLat summaryWithCoords.geometry = some 3 ∧
    geomLng summaryWithCoords.geometry = some 4 ∧
    (toRecord summaryWithCoords (some latOnlyDetails)).latitude = some 1 ∧
    (toRecord summaryWithCoords (some latOnlyDetails)).longitude = some 4 :=
  ⟨rfl, rfl, rfl, rfl, rfl, rfl⟩

/-- C6 amended: latitude and longitude each fall back from detail to
summary independently: when the detail supplies both, the pair is the
detail's; when it supplies neither (or is absent), the pair is the
summary's; when it supplies exactly one, the output mixes the detail's
coordinate with the summary's other coordinate. -/
theorem toRecord_coordinates_independent (s : TextSearchPlace) (d : PlaceDetails)
    (a b : Int) :
    (geomLat d.geometry = some a → geomLng d.geometry = some b →
      (toRecord s (some d)).latitude = some a ∧
      (toRecord s (some d)).longitude = some b) ∧
    (geomLat d.geometry = none → geomLng d.geometry = none →
      (toRecord s (some d)).latitude = geomLat s.geometry ∧
      (toRecord s (some d)).longitude = geomLng s.geometry) ∧
    (geomLat d.geometry = some a → geomLng d.geometry = none →
      (toRecord s (some d)).latitude = some a ∧
      (toRecord s (some d)).longitude = geomLng s.geometry) ∧
    (geomLat d.geometry = none → geomLng d.geometry = some b →
      (toRecord s (some d)).latitude = geomLat s.geometry ∧
      (toRecord s (some d)).longitude = some b) ∧
    (toRecord s none).latitude = geomLat s.geometry ∧
    (toRecord s none).longitude = geomLng s.geometry := by
  have hlat : (toRecord s (some d)).latitude =
      ((geomLat d.geometry).orElse fun _ => geomLat s.geometry) := rfl
  have hlng : (toRecord s (some d)).longitude =
      ((geomLng d.geometry).orElse fun _ => geomLng s.geometry) := rfl
  refine ⟨?_, ?_, ?_, ?_, rfl, rfl⟩
  · intro h1 h2
    rw [hlat, hlng, h1, h2]
    exact ⟨rfl, rfl⟩
  · intro h1 h2
    rw [hlat, hlng, h1, h2]
    exact ⟨rfl, rfl⟩
  · intro h1 h2
    rw [hlat, hlng, h1, h2]
    exact ⟨rfl, rfl⟩
  · intro h1 h2
    rw [hlat, hlng, h1, h2]
    exact ⟨rfl, rfl⟩

/-- C6 amended witness: a detail with a full pair overrides the summary's
pair as a unit. -/
theorem toRecord_coordinates_independent_witness :
    (toRecord summaryWithCoords
      (some { emptyDetails with
        geometry := some { location := some { lat := some 7, lng := some 8 } } })).latitude =
      some 7 ∧
    (toRecord summaryWithCoords
      (some { emptyDetails with
        geometry := some { location := some { lat := some 7, lng := some 8 } } })).longitude =
      some 8 :=
  (toRecord_coordinates_independent summaryWithCoords
    { emptyDetails with
      geometry := some { location := some { lat := some 7, lng := some 8 } } } 7 8).1 rfl rfl

/-- C8: the record's map URL is the detail's canonical `url` when present;
otherwise, when the merged latitude and longitude both resolved, it is the
constructed map-search URL parameterised by them and the summary identifier
(for lat 1, lng 2 and id `"p1"` it contains `"1,2"` and `"p1"`); otherwise
it is absent. -/
theorem toRecord_mapUrl_precedence (s : TextSearchPlace) (d : Option PlaceDetails) :
    (∀ u, (d.getD emptyDetails).url = some u →
      (toRecord s d).googleMapsUrl = some u) ∧
    ((d.getD emptyDetails).url = none → ∀ a b,
      (toRecord s d).latitude = some a → (toRecord s d).longitude = some b →
      (toRecord s d).googleMapsUrl = some (mapsSearchUrl a b s.place_id)) ∧
    ((d.getD emptyDetails).url = none → (toRecord s d).latitude = none →
      (toRecord s d).googleMapsUrl = none) ∧
    ((d.getD emptyDetails).url = none → (toRecord s d).longitude = none →
      (toRecord s d).googleMapsUrl = none) ∧
    strIncludes (mapsSearchUrl 1 2 "p1") "1,2" = true ∧
    strIncludes (mapsSearchUrl 1 2 "p1") "p1" = true := by
  have hu : (toRecord s d).googleMapsUrl =
      ((d.getD emptyDetails).url.orElse fun _ =>
        match (toRecord s d).latitude, (toRecord s d).longitude with
        | some la, some ln => some (mapsSearchUrl la ln s.place_id)
        | _, _ => none) := rfl
  refine ⟨?_, ?_, ?_, ?_, rfl, rfl⟩
  · intro u h
    rw [hu, h]
    rfl
  · intro h0 a b ha hb
    rw [hu, h0, ha, hb]
    rfl
  · intro h0 hla
    rw [hu, h0, hla]
    cases (toRecord s d).longitude <;> rfl
  · intro h0 hlb
    rw [hu, h0, hlb]
    cases (toRecord s d).latitude <;> rfl

/-- C8 witness: with no detail and summary coordinates (1, 2) on id `"p1"`,
the constructed URL is produced. -/
theorem toRecord_mapUrl_precedence_witness :
    (toRecord summaryP1 none).googleMapsUrl = some (mapsSearchUrl 1 2 "p1") :=
  (toRecord_mapUrl_precedence summaryP1 none).2.1 rfl 1 2 rfl rfl

/-- C7 (code evaluated at the failing input): a details response with
business status `REQUEST_DENIED` and no error message throws the generic
details message, which contains neither `"quota exceeded"` nor
`"Request denied"`, so the batch catch absorbs it as absent detail and the
orchestration completes successfully instead of aborting. -/
theorem denied_detail_absorbed :
    fetchPlaceDetails deniedDetailResponse =
      Except.error "Google Places Details returned status REQUEST_DENIED" ∧
    strIncludes "Google Places Details returned status REQUEST_DENIED"
      "quota exceeded" = false ∧
    strIncludes "Google Places Details returned status REQUEST_DENIED"
      "Request denied" = false ∧
    chunkFetch deniedDetailResponse = Except.ok none ∧
    orchestrateGo (fun _ => deniedDetailResponse) [bareSummary] 0 =
      Except.ok [toRecord bareSummary none] :=
  ⟨rfl, rfl, rfl, rfl, rfl⟩

/-- C4 counterexample: a single page answering with 61 results and no
continuation token makes the page loop accumulate 61 summaries, exceeding
the hard ceiling of 60, even under the default sanitised cap. -/
theorem walker_summaries_exceed_ceiling_cex :
    walkerGo 60 [] [SearchResponse.payload "OK" none
      (List.replicate 61 bareSummary) none] =
      WalkerOutcome.done (List.replicate 61 bareSummary) ∧
    (List.replicate 61 bareSummary).length = 61 ∧
    (sanitizeMaxResults JsValue.other).toNat = 60 := by
  refine ⟨?_, by simp, rfl⟩
  rfl

/-! Helper lemmas about the orchestrator. -/

/-- Range of the sanitised cap. -/
theorem sanitizeMaxResults_range (v : JsValue) :
    1 ≤ sanitizeMaxResults v ∧ sanitizeMaxResults v ≤ 60 := by
  cases v <;> simp only [sanitizeMaxResults, MAX_TOTAL_RESULTS] <;> constructor <;> omega

/-- A non-fatal batch member yields its absorbed detail. -/
theorem chunkFetch_of_not_fatal (r : DetailResponse) (h : fatalFetch r = false) :
    chunkFetch r = Except.ok (absorbedDetail r) := by
  unfold fatalFetch at h
  unfold absorbedDetail
  cases hc : chunkFetch r with
  | ok d => rfl
  | error m => rw [hc] at h; simp at h

/-- The details each member of a chunk would contribute when none is
fatal. -/
def chunkDetails (oracle : Nat → DetailResponse) :
    List TextSearchPlace → Nat → List (Option PlaceDetails)
  | [], _ => []
  | _ :: rest, i => absorbedDetail (oracle i) :: chunkDetails oracle rest (i + 1)

/-- A chunk with no fatal member resolves to its absorbed details. -/
theorem chunkResults_eq_ok (oracle : Nat → DetailResponse) :
    ∀ (c : List TextSearchPlace) (i : Nat),
    (∀ j, j < c.length → fatalFetch (oracle (i + j)) = false) →
    chunkResults oracle c i = Except.ok (chunkDetails oracle c i) := by
  intro c
  induction c with
  | nil => intro i _; rfl
  | cons s rest ih =>
    intro i h
    have h0 : fatalFetch (oracle i) = false := by
      have := h 0 (by simp)
      simpa using this
    have hrec := ih (i + 1) (fun j hj => by
      have := h (j + 1) (by simpa using Nat.succ_lt_succ hj)
      have harith : i + (j + 1) = i + 1 + j := by omega
      rwa [harith] at this)
    unfold chunkResults
    rw [chunkFetch_of_not_fatal _ h0, hrec]
    rfl

/-- Length of a successfully resolved chunk. -/
theorem chunkResults_length (oracle : Nat → DetailResponse) :
    ∀ (c : List TextSearchPlace) (i : Nat) (ds : List (Option PlaceDetails)),
    chunkResults oracle c i = Except.ok ds → ds.length = c.length := by
  intro c
  induction c with
  | nil => intro i ds h; cases h; rfl
  | cons s rest ih =>
    intro i ds h
    unfold chunkResults at h
    cases hc : chunkFetch (oracle i) with
    | error m => rw [hc] at h; cases h
    | ok d =>
      rw [hc] at h
      cases hr : chunkResults oracle rest (i + 1) with
      | error m => rw [hr] at h; cases h
      | ok ds2 =>
        rw [hr] at h
        cases h
        simp [ih (i + 1) ds2 hr]

/-- Zipping a chunk with its resolved details is `enrichAll` on the
chunk. -/
theorem zipWith_chunkDetails (oracle : Nat → DetailResponse) :
    ∀ (c : List TextSearchPlace) (i : Nat),
    List.zipWith toRecord c (chunkDetails oracle c i) = enrichAll oracle c i := by
  intro c
  induction c with
  | nil => intro i; rfl
  | cons s rest ih => intro i; simp [chunkDetails, enrichAll, List.zipWith, ih (i + 1)]

/-- `enrichAll` distributes over append, shifting the index. -/
theorem enrichAll_append (oracle : Nat → DetailResponse) :
    ∀ (u v : List TextSearchPlace) (i : Nat),
    enrichAll oracle (u ++ v) i = enrichAll oracle u i ++ enrichAll oracle v (i + u.length) := by
  intro u
  induction u with
  | nil => intro v i; simp [enrichAll]
  | cons s rest ih =>
    intro v i
    have harith : i + (s :: rest).length = i + 1 + rest.length := by
      simp only [List.length_cons]
      omega
    rw [harith]
    show toRecord s (absorbedDetail (oracle i)) :: enrichAll oracle (rest ++ v) (i + 1) =
      (toRecord s (absorbedDetail (oracle i)) :: enrichAll oracle rest (i + 1)) ++
        enrichAll oracle v (i + 1 + rest.length)
    rw [List.cons_append, ih v (i + 1)]

/-- `enrichAll` preserves the length. -/
theorem enrichAll_length (oracle : Nat → DetailResponse) :
    ∀ (l : List TextSearchPlace) (i : Nat), (enrichAll oracle l i).length = l.length := by
  intro l
  induction l with
  | nil => intro i; rfl
  | cons s rest ih => intro i; simp [enrichAll, ih (i + 1)]

/-- Pointwise description of `enrichAll`. -/
theorem enrichAll_getElem (oracle : Nat → DetailResponse) :
    ∀ (l : List TextSearchPlace) (b j : Nat),
    (enrichAll oracle l b)[j]? =
      (l[j]?).map fun s => toRecord s (absorbedDetail (oracle (b + j))) := by
  intro l
  induction l with
  | nil => intro b j; simp [enrichAll]
  | cons s rest ih =>
    intro b j
    cases j with
    | zero => simp [enrichAll]
    | succ n =>
      simp only [enrichAll, List.getElem?_cons_succ, ih (b + 1) n]
      have h : b + 1 + n = b + (n + 1) := by omega
      rw [h]

/-- With no fatal fetch in range, the orchestrator loop succeeds and
produces exactly the enriched records. -/
theorem orchestrateAux_ok (oracle : Nat → DetailResponse) :
    ∀ (fuel : Nat) (l : List TextSearchPlace) (i : Nat),
    l.length ≤ fuel →
    (∀ j, j < l.length → fatalFetch (oracle (i + j)) = false) →
    orchestrateAux oracle fuel l i = Except.ok (enrichAll oracle l i) := by
  intro fuel
  induction fuel with
  | zero =>
    intro l i hl _
    cases l with
    | nil => rfl
    | cons s rest => simp at hl
  | succ n ih =>
    intro l i hl hf
    cases l with
    | nil => rfl
    | cons s rest =>
      have hchunk : chunkResults oracle ((s :: rest).take 5) i =
          Except.ok (chunkDetails oracle ((s :: rest).take 5) i) := by
        apply chunkResults_eq_ok
        intro j hj
        apply hf
        rw [List.length_take] at hj
        omega
      have hrest : orchestrateAux oracle n ((s :: rest).drop 5) (i + 5) =
          Except.ok (enrichAll oracle ((s :: rest).drop 5) (i + 5)) := by
        apply ih
        · rw [List.length_drop]
          simp only [List.length_cons] at hl ⊢
          omega
        · intro j hj
          rw [List.length_drop] at hj
          have h5j : 5 + j < (s :: rest).length := by omega
          have := hf (5 + j) h5j
          have harith : i + 5 + j = i + (5 + j) := by omega
          rwa [harith]
      simp only [orchestrateAux, hchunk, hrest]
      rw [zipWith_chunkDetails]
      by_cases hle : (s :: rest).length ≤ 5
      · rw [List.take_of_length_le hle, List.drop_eq_nil_of_le hle]
        simp [enrichAll]
      · have h5 : ((s :: rest).take 5).length = 5 := by
          rw [List.length_take]
          omega
        conv_rhs => rw [← List.take_append_drop 5 (s :: rest)]
        rw [enrichAll_append, h5]

/-- A successful orchestration returns one record per summary. -/
theorem orchestrateAux_length (oracle : Nat → DetailResponse) :
    ∀ (fuel : Nat) (l : List TextSearchPlace) (i : Nat) (rs : List PlaceRecord),
    l.length ≤ fuel → orchestrateAux oracle fuel l i = Except.ok rs →
    rs.length = l.length := by
  intro fuel
  induction fuel with
  | zero =>
    intro l i rs hl h
    cases l with
    | nil => cases h; rfl
    | cons s rest => simp at hl
  | succ n ih =>
    intro l i rs hl h
    cases l with
    | nil => cases h; rfl
    | cons s rest =>
      unfold orchestrateAux at h
      cases hc : chunkResults oracle ((s :: rest).take 5) i with
      | error m => rw [hc] at h; cases h
      | ok ds =>
        rw [hc] at h
        cases hr : orchestrateAux oracle n ((s :: rest).drop 5) (i + 5) with
        | error m => rw [hr] at h; cases h
        | ok more =>
          rw [hr] at h
          cases h
          have hds := chunkResults_length oracle _ _ _ hc
          have hmore := ih ((s :: rest).drop 5) (i + 5) more
            (by rw [List.length_drop]; simp only [List.length_cons] at hl ⊢; omega) hr
          simp only [List.length_append, List.length_zipWith, hds, hmore,
            List.length_take, List.length_drop]
          simp only [List.length_cons]
          omega

/-- A quota details response makes its batch member rethrow the quota
message (the message contains `"quota exceeded"`). -/
theorem chunkFetch_of_quota (r : DetailResponse) (h : isQuotaDetail r) :
    chunkFetch r = Except.error quotaMessage := by
  obtain ⟨em, result, rfl⟩ := h
  rfl

/-- A quota details response is fatal for its batch. -/
theorem fatalFetch_of_quota (r : DetailResponse) (h : isQuotaDetail r) :
    fatalFetch r = true := by
  unfold fatalFetch
  rw [chunkFetch_of_quota r h]

/-- A chunk containing a fatal member, all of whose fatal members carry the
quota error, rejects with the quota message. -/
theorem chunkResults_error_quota (oracle : Nat → DetailResponse) :
    ∀ (c : List TextSearchPlace) (i : Nat),
    (∃ j, j < c.length ∧ fatalFetch (oracle (i + j)) = true) →
    (∀ j, j < c.length → fatalFetch (oracle (i + j)) = true →
      chunkFetch (oracle (i + j)) = Except.error quotaMessage) →
    chunkResults oracle c i = Except.error quotaMessage := by
  intro c
  induction c with
  | nil =>
    intro i h _
    obtain ⟨j, hj, _⟩ := h
    simp at hj
  | cons s rest ih =>
    intro i hex hall
    by_cases h0 : fatalFetch (oracle i) = true
    · have hc : chunkFetch (oracle i) = Except.error quotaMessage := by
        have := hall 0 (by simp) (by simpa using h0)
        simpa using this
      unfold chunkResults
      rw [hc]
    · have h0f : fatalFetch (oracle i) = false := by
        rw [Bool.not_eq_true] at h0
        exact h0
      obtain ⟨j, hj, hjf⟩ := hex
      have hj0 : j ≠ 0 := by
        intro heq
        subst heq
        rw [Nat.add_zero] at hjf
        rw [hjf] at h0f
        cases h0f
      have hexr : ∃ j2, j2 < rest.length ∧ fatalFetch (oracle (i + 1 + j2)) = true := by
        refine ⟨j - 1, ?_, ?_⟩
        · simp only [List.length_cons] at hj
          omega
        · have harith : i + 1 + (j - 1) = i + j := by omega
          rw [harith]
          exact hjf
      have hallr : ∀ j2, j2 < rest.length → fatalFetch (oracle (i + 1 + j2)) = true →
          chunkFetch (oracle (i + 1 + j2)) = Except.error quotaMessage := by
        intro j2 hj2 hf2
        have harith : i + 1 + j2 = i + (j2 + 1) := by omega
        rw [harith] at hf2 ⊢
        exact hall (j2 + 1) (by simp only [List.length_cons]; omega) hf2
      unfold chunkResults
      rw [chunkFetch_of_not_fatal _ h0f, ih (i + 1) hexr hallr]

/-- When some fetch in range is fatal and every fatal fetch carries the
quota error, the whole orchestration rejects with the quota message. -/
theorem orchestrateAux_quota (oracle : Nat → DetailResponse) :
    ∀ (fuel : Nat) (l : List TextSearchPlace) (i : Nat),
    l.length ≤ fuel →
    (∃ j, j < l.length ∧ fatalFetch (oracle (i + j)) = true) →
    (∀ j, j < l.length → fatalFetch (oracle (i + j)) = true →
      chunkFetch (oracle (i + j)) = Except.error quotaMessage) →
    orchestrateAux oracle fuel l i = Except.error quotaMessage := by
  intro fuel
  induction fuel with
  | zero =>
    intro l i hl hex _
    obtain ⟨j, hj, _⟩ := hex
    omega
  | succ n ih =>
    intro l i hl hex hall
    cases l with
    | nil =>
      obtain ⟨j, hj, _⟩ := hex
      simp at hj
    | cons s rest =>
      by_cases hcf : ∃ j, j < ((s :: rest).take 5).length ∧
          fatalFetch (oracle (i + j)) = true
      · have hc : chunkResults oracle ((s :: rest).take 5) i =
            Except.error quotaMessage := by
          apply chunkResults_error_quota oracle _ i hcf
          intro j hj hf
          apply hall j _ hf
          rw [List.length_take] at hj
          simp only [List.length_cons] at hj ⊢
          omega
        simp only [orchestrateAux, hc]
      · have hok : ∀ j, j < ((s :: rest).take 5).length →
            fatalFetch (oracle (i + j)) = false := by
          intro j hj
          cases hb : fatalFetch (oracle (i + j)) with
          | false => rfl
          | true => exact absurd ⟨j, hj, hb⟩ hcf
        have hc := chunkResults_eq_ok oracle ((s :: rest).take 5) i hok
        obtain ⟨j, hj, hjf⟩ := hex
        have hchunklen : ((s :: rest).take 5).length = min 5 (s :: rest).length :=
          List.length_take 5 (s :: rest)
        have hj5 : 5 ≤ j := by
          by_contra hlt
          have hfalse : fatalFetch (oracle (i + j)) = false := hok j (by omega)
          rw [hfalse] at hjf
          cases hjf
        have hexr : ∃ j2, j2 < ((s :: rest).drop 5).length ∧
            fatalFetch (oracle (i + 5 + j2)) = true := by
          refine ⟨j - 5, ?_, ?_⟩
          · rw [List.length_drop]
            omega
          · have harith : i + 5 + (j - 5) = i + j := by omega
            rw [harith]
            exact hjf
        have hallr : ∀ j2, j2 < ((s :: rest).drop 5).length →
            fatalFetch (oracle (i + 5 + j2)) = true →
            chunkFetch (oracle (i + 5 + j2)) = Except.error quotaMessage := by
          intro j2 hj2 hf2
          rw [List.length_drop] at hj2
          have harith : i + 5 + j2 = i + (5 + j2) := by omega
          rw [harith] at hf2 ⊢
          exact hall (5 + j2) (by omega) hf2
        have hrec := ih ((s :: rest).drop 5) (i + 5)
          (by rw [List.length_drop]; simp only [List.length_cons] at hl ⊢; omega)
          hexr hallr
        simp only [orchestrateAux, hc, hrec]

/-! Helper lemmas about the walker and `POST`. -/

/-- Running the walker on an extended transcript continues where the
consumed prefix left it still looping. -/
theorem walkerGo_append (cleanMax : Nat) :
    ∀ (pre : List SearchResponse) (acc acc2 : List TextSearchPlace)
      (post : List SearchResponse),
    walkerGo cleanMax acc pre = WalkerOutcome.pending acc2 →
    walkerGo cleanMax acc (pre ++ post) = walkerGo cleanMax acc2 post := by
  intro pre
  induction pre with
  | nil =>
    intro acc acc2 post h
    cases h
    rfl
  | cons r rest ih =>
    intro acc acc2 post h
    rw [List.cons_append]
    unfold walkerGo at h
    conv_lhs => unfold walkerGo
    cases hf : fetchTextSearchPage r with
    | error m =>
      rw [hf] at h
      have h2 : WalkerOutcome.fail m = WalkerOutcome.pending acc2 := h
      cases h2
    | ok page =>
      obtain ⟨results, tok⟩ := page
      rw [hf] at h
      have h2 : (if optTruthy tok ∧ (acc ++ results).length < cleanMax ∧
          (acc ++ results).length < MAX_TOTAL_RESULTS then
          walkerGo cleanMax (acc ++ results) rest
        else WalkerOutcome.done (acc ++ results)) = WalkerOutcome.pending acc2 := h
      show (if optTruthy tok ∧ (acc ++ results).length < cleanMax ∧
          (acc ++ results).length < MAX_TOTAL_RESULTS then
          walkerGo cleanMax (acc ++ results) (rest ++ post)
        else WalkerOutcome.done (acc ++ results)) = _
      by_cases hcond : optTruthy tok ∧ (acc ++ results).length < cleanMax ∧
          (acc ++ results).length < MAX_TOTAL_RESULTS
      · rw [if_pos hcond] at h2 ⊢
        exact ih (acc ++ results) acc2 post h2
      · rw [if_neg hcond] at h2
        cases h2

/-- A quota-status page makes the walker fail with the quota message, no
matter how many summaries are already accumulated. -/
theorem walkerGo_quota_page (cleanMax : Nat) (acc : List TextSearchPlace)
    (em : Option String) (results : List TextSearchPlace) (tok : Option String)
    (rest : List SearchResponse) :
    walkerGo cleanMax acc
      (SearchResponse.payload "OVER_QUERY_LIMIT" em results tok :: rest) =
      WalkerOutcome.fail quotaMessage := rfl

/-- On a valid body, `POST` is the walker followed by trimming and the
orchestrator. -/
theorem POST_eq_of_valid (body : RequestBody) (pages : List SearchResponse)
    (oracle : Nat → DetailResponse) (hv : requestValid body = true) :
    POST body pages oracle =
      (match walkerGo (cleanMaxOf body) [] pages with
       | WalkerOutcome.pending acc => ApiResult.pending acc
       | WalkerOutcome.fail m => ApiResult.error 500 m
       | WalkerOutcome.done summaries =>
         match orchestrateGo oracle (summaries.take (cleanMaxOf body)) 0 with
         | Except.error m => ApiResult.error 500 m
         | Except.ok records => ApiResult.ok records) := by
  unfold POST requestValid at *
  cases hk : body.apiKey with
  | none =>
    simp only [hk] at hv
    cases hv
  | some k =>
    simp only [hk] at hv
    simp only [hk]
    by_cases hkt : jsTrim k = ""
    · rw [if_pos hkt] at hv
      cases hv
    · rw [if_neg hkt] at hv
      rw [if_neg hkt]
      cases hq : body.query with
      | none =>
        simp only [hq] at hv
        cases hv
      | some q =>
        simp only [hq] at hv
        simp only [hq]
        by_cases hqt : jsTrim q = ""
        · rw [hqt] at hv
          simp at hv
        · rw [if_neg hqt]
          rfl

/-- On an invalid body, `POST` reports a 400 validation error. -/
theorem POST_of_invalid (body : RequestBody) (pages : List SearchResponse)
    (oracle : Nat → DetailResponse) (hv : requestValid body = false) :
    POST body pages oracle = ApiResult.error 400 "API key is required." ∨
    POST body pages oracle = ApiResult.error 400 "Search keyword is required." := by
  unfold POST requestValid at *
  cases hk : body.apiKey with
  | none =>
    refine Or.inl ?_
    simp only [hk]
  | some k =>
    simp only [hk] at hv
    simp only [hk]
    by_cases hkt : jsTrim k = ""
    · refine Or.inl ?_
      rw [if_pos hkt]
    · rw [if_neg hkt] at hv
      rw [if_neg hkt]
      cases hq : body.query with
      | none =>
        refine Or.inr ?_
        simp only [hq]
      | some q =>
        simp only [hq] at hv
        simp only [hq]
        by_cases hqt : jsTrim q = ""
        · refine Or.inr ?_
          rw [if_pos hqt]
        · exfalso
          simp only [bne_eq_false_iff_eq] at hv
          exact hqt hv

/-- A details response that resolves to absent detail without any error. -/
def notFoundDetailResponse : DetailResponse :=
  DetailResponse.payload "NOT_FOUND" none none

/-- A concrete valid request body (default cap: `maxResults` absent). -/
def okPageBody : RequestBody :=
  { apiKey := some "key", query := some "pizza", location := none,
    maxResults := JsValue.other }

/-- C1: with no rate-limit or denial error among the detail fetches, the
orchestrator returns exactly one normalised record per trimmed summary, in
input order: the i-th record is the i-th summary merged with its own
(possibly absorbed) detail. -/
theorem orchestrator_one_record_per_summary (summaries : List TextSearchPlace)
    (oracle : Nat → DetailResponse)
    (h : ∀ i, i < summaries.length → fatalFetch (oracle i) = false) :
    orchestrateGo oracle summaries 0 = Except.ok (enrichAll oracle summaries 0) ∧
    (enrichAll oracle summaries 0).length = summaries.length ∧
    ∀ i, (enrichAll oracle summaries 0)[i]? =
      (summaries[i]?).map fun s => toRecord s (absorbedDetail (oracle i)) := by
  refine ⟨?_, enrichAll_length oracle summaries 0, ?_⟩
  · exact orchestrateAux_ok oracle summaries.length summaries 0 le_rfl
      (fun j hj => by simpa using h j hj)
  · intro i
    have hpt := enrichAll_getElem oracle summaries 0 i
    simpa using hpt

/-- C1 witness: a one-summary run whose only detail fetch is a non-fatal
not-found. -/
theorem orchestrator_one_record_per_summary_witness :
    orchestrateGo (fun _ => notFoundDetailResponse) [bareSummary] 0 =
      Except.ok (enrichAll (fun _ => notFoundDetailResponse) [bareSummary] 0) ∧
    (enrichAll (fun _ => notFoundDetailResponse) [bareSummary] 0).length = 1 :=
  ⟨(orchestrator_one_record_per_summary [bareSummary]
      (fun _ => notFoundDetailResponse) (fun _ _ => rfl)).1,
   (orchestrator_one_record_per_summary [bareSummary]
      (fun _ => notFoundDetailResponse) (fun _ _ => rfl)).2.1⟩

/-- A fatal batch member rejects with some message. -/
theorem chunkFetch_error_of_fatal (r : DetailResponse) (h : fatalFetch r = true) :
    ∃ m, chunkFetch r = Except.error m := by
  unfold fatalFetch at h
  cases hc : chunkFetch r with
  | ok d =>
    rw [hc] at h
    exact absurd (show false = true from h) (by decide)
  | error m => exact ⟨m, rfl⟩

/-- A chunk containing any fatal member rejects with some message. -/
theorem chunkResults_error_of_fatal (oracle : Nat → DetailResponse) :
    ∀ (c : List TextSearchPlace) (i : Nat),
    (∃ j, j < c.length ∧ fatalFetch (oracle (i + j)) = true) →
    ∃ m, chunkResults oracle c i = Except.error m := by
  intro c
  induction c with
  | nil =>
    intro i h
    obtain ⟨j, hj, _⟩ := h
    simp at hj
  | cons s rest ih =>
    intro i hex
    by_cases h0 : fatalFetch (oracle i) = true
    · obtain ⟨m, hm⟩ := chunkFetch_error_of_fatal (oracle i) h0
      exact ⟨m, by unfold chunkResults; rw [hm]⟩
    · have h0f : fatalFetch (oracle i) = false := by
        rw [Bool.not_eq_true] at h0
        exact h0
      obtain ⟨j, hj, hjf⟩ := hex
      have hj0 : j ≠ 0 := by
        intro heq
        subst heq
        rw [Nat.add_zero] at hjf
        rw [hjf] at h0f
        cases h0f
      have hexr : ∃ j2, j2 < rest.length ∧ fatalFetch (oracle (i + 1 + j2)) = true := by
        refine ⟨j - 1, ?_, ?_⟩
        · simp only [List.length_cons] at hj
          omega
        · have harith : i + 1 + (j - 1) = i + j := by omega
          rw [harith]
          exact hjf
      obtain ⟨m, hm⟩ := ih (i + 1) hexr
      exact ⟨m, by unfold chunkResults; rw [chunkFetch_of_not_fatal _ h0f, hm]⟩

/-- When any fetch in range is fatal, the whole orchestration rejects with
some message. -/
theorem orchestrateAux_fatal (oracle : Nat → DetailResponse) :
    ∀ (fuel : Nat) (l : List TextSearchPlace) (i : Nat),
    l.length ≤ fuel →
    (∃ j, j < l.length ∧ fatalFetch (oracle (i + j)) = true) →
    ∃ m, orchestrateAux oracle fuel l i = Except.error m := by
  intro fuel
  induction fuel with
  | zero =>
    intro l i hl hex
    obtain ⟨j, hj, _⟩ := hex
    omega
  | succ n ih =>
    intro l i hl hex
    cases l with
    | nil =>
      obtain ⟨j, hj, _⟩ := hex
      simp at hj
    | cons s rest =>
      by_cases hcf : ∃ j, j < ((s :: rest).take 5).length ∧
          fatalFetch (oracle (i + j)) = true
      · obtain ⟨m, hm⟩ := chunkResults_error_of_fatal oracle ((s :: rest).take 5) i hcf
        exact ⟨m, by simp only [orchestrateAux, hm]⟩
      · have hok : ∀ j, j < ((s :: rest).take 5).length →
            fatalFetch (oracle (i + j)) = false := by
          intro j hj
          cases hb : fatalFetch (oracle (i + j)) with
          | false => rfl
          | true => exact absurd ⟨j, hj, hb⟩ hcf
        have hc := chunkResults_eq_ok oracle ((s :: rest).take 5) i hok
        obtain ⟨j, hj, hjf⟩ := hex
        have hchunklen : ((s :: rest).take 5).length = min 5 (s :: rest).length :=
          List.length_take 5 (s :: rest)
        have hj5 : 5 ≤ j := by
          by_contra hlt
          have hfalse : fatalFetch (oracle (i + j)) = false := hok j (by omega)
          rw [hfalse] at hjf
          cases hjf
        have hexr : ∃ j2, j2 < ((s :: rest).drop 5).length ∧
            fatalFetch (oracle (i + 5 + j2)) = true := by
          refine ⟨j - 5, ?_, ?_⟩
          · rw [List.length_drop]
            omega
          · have harith : i + 5 + (j - 5) = i + j := by omega
            rw [harith]
            exact hjf
        obtain ⟨m, hm⟩ := ih ((s :: rest).drop 5) (i + 5)
          (by rw [List.length_drop]; simp only [List.length_cons] at hl ⊢; omega) hexr
        exact ⟨m, by simp only [orchestrateAux, hc, hm]⟩

/-- A detail oracle in which the fetch at index 0 is answered with a denial
whose remote-supplied message happens to contain `"Request denied"` (so the
batch catch rethrows it), while the fetch at index 1 is answered with the
quota status. -/
def mixedOracle : Nat → DetailResponse :=
  fun i =>
    if i = 0 then
      DetailResponse.payload "REQUEST_DENIED" (some "Request denied: bad key") none
    else DetailResponse.payload "OVER_QUERY_LIMIT" none none

/-- C2 counterexample: a run in which the details endpoint reports the
quota status for an issued fetch (index 1 of the first batch of two), yet
the denial response of the same batch wins the rejection and `POST`
surfaces its message, not the quota-exceeded message — refuting the claim
that every quota-reporting run ends with the quota message. -/
theorem quota_alongside_denial_cex :
    isQuotaDetail (mixedOracle 1) ∧
    (List.take (cleanMaxOf okPageBody) [bareSummary, summaryP1]).length = 2 ∧
    POST okPageBody [SearchResponse.payload "OK" none [bareSummary, summaryP1] none]
      mixedOracle = ApiResult.error 500 "Request denied: bad key" ∧
    "Request denied: bad key" ≠ quotaMessage := by
  refine ⟨⟨none, none, rfl⟩, rfl, rfl, ?_⟩
  decide

/-- C2 amended: a quota status from the search endpoint on any consumed
page aborts the operation as a 500 carrying the quota message, regardless
of how many summaries were already collected; a quota status reported by an
issued detail fetch aborts the operation as a 500 error with no partial
result set, and the surfaced message is the quota message whenever every
fatal detail response of the run is the quota error — when another
rethrown fatal detail response occurs in the same run, its message may be
surfaced instead. -/
theorem quota_status_aborts (body : RequestBody) (pages : List SearchResponse)
    (oracle : Nat → DetailResponse) (hv : requestValid body = true) :
    (SearchQuotaHit (cleanMaxOf body) pages →
      POST body pages oracle = ApiResult.error 500 quotaMessage) ∧
    (DetailQuotaHit (cleanMaxOf body) pages oracle →
      POST body pages oracle = ApiResult.error 500 quotaMessage) ∧
    (∀ summaries i,
      walkerGo (cleanMaxOf body) [] pages = WalkerOutcome.done summaries →
      i < (summaries.take (cleanMaxOf body)).length → isQuotaDetail (oracle i) →
      ∃ m, POST body pages oracle = ApiResult.error 500 m) := by
  rw [POST_eq_of_valid body pages oracle hv]
  refine ⟨?_, ?_, ?_⟩
  · intro hs
    obtain ⟨pre, r, rest, acc, hp, hqr, hpend⟩ := hs
    obtain ⟨em, results, tok, hr⟩ := hqr
    subst hp
    subst hr
    rw [walkerGo_append (cleanMaxOf body) pre [] acc _ hpend]
    rw [walkerGo_quota_page]
  · intro hd
    obtain ⟨summaries, hdone, ⟨i, hi, hiq⟩, hall⟩ := hd
    rw [hdone]
    show (match orchestrateGo oracle (summaries.take (cleanMaxOf body)) 0 with
      | Except.error m => ApiResult.error 500 m
      | Except.ok records => ApiResult.ok records) = ApiResult.error 500 quotaMessage
    have hq : orchestrateGo oracle (summaries.take (cleanMaxOf body)) 0 =
        Except.error quotaMessage := by
      unfold orchestrateGo
      apply orchestrateAux_quota oracle _ _ 0 le_rfl
      · exact ⟨i, hi, by simpa using fatalFetch_of_quota _ hiq⟩
      · intro j hj hf
        have hc := hall j hj (by simpa using hf)
        simpa using hc
    rw [hq]
  · intro summaries i hdone hi hiq
    rw [hdone]
    have hfat : ∃ m, orchestrateGo oracle (summaries.take (cleanMaxOf body)) 0 =
        Except.error m := by
      unfold orchestrateGo
      apply orchestrateAux_fatal oracle _ _ 0 le_rfl
      exact ⟨i, hi, by simpa using fatalFetch_of_quota _ hiq⟩
    obtain ⟨m, hm⟩ := hfat
    refine ⟨m, ?_⟩
    show (match orchestrateGo oracle (summaries.take (cleanMaxOf body)) 0 with
      | Except.error m => ApiResult.error 500 m
      | Except.ok records => ApiResult.ok records) = ApiResult.error 500 m
    rw [hm]

/-- C2 amended witness: the very first page reports the quota status. -/
theorem quota_status_aborts_witness :
    POST okPageBody [SearchResponse.payload "OVER_QUERY_LIMIT" none [] none]
      (fun _ => notFoundDetailResponse) = ApiResult.error 500 quotaMessage :=
  (quota_status_aborts okPageBody
    [SearchResponse.payload "OVER_QUERY_LIMIT" none [] none]
    (fun _ => notFoundDetailResponse) rfl).1
    ⟨[], SearchResponse.payload "OVER_QUERY_LIMIT" none [] none, [], [],
      rfl, ⟨none, [], none, rfl⟩, rfl⟩

/-- C4 amended: whatever the page sizes and continuation tokens, the record
set a successful run returns never exceeds the sanitised cap, hence never
exceeds the hard ceiling 60; the raw summaries accumulation, by contrast,
can overshoot the ceiling inside its final page. -/
theorem returned_records_respect_ceiling (body : RequestBody)
    (pages : List SearchResponse) (oracle : Nat → DetailResponse)
    (records : List PlaceRecord)
    (h : POST body pages oracle = ApiResult.ok records) :
    records.length ≤ cleanMaxOf body ∧ records.length ≤ 60 := by
  have hv : requestValid body = true := by
    cases hvv : requestValid body with
    | true => rfl
    | false =>
      rcases POST_of_invalid body pages oracle hvv with h4 | h4 <;>
        rw [h4] at h <;> cases h
  rw [POST_eq_of_valid body pages oracle hv] at h
  cases hw : walkerGo (cleanMaxOf body) [] pages with
  | pending acc =>
    rw [hw] at h
    have h2 : ApiResult.pending acc = ApiResult.ok records := h
    cases h2
  | fail m =>
    rw [hw] at h
    have h2 : ApiResult.error 500 m = ApiResult.ok records := h
    cases h2
  | done summaries =>
    rw [hw] at h
    have h2 : (match orchestrateGo oracle (summaries.take (cleanMaxOf body)) 0 with
      | Except.error m => ApiResult.error 500 m
      | Except.ok records => ApiResult.ok records) = ApiResult.ok records := h
    cases ho : orchestrateGo oracle (summaries.take (cleanMaxOf body)) 0 with
    | error m =>
      rw [ho] at h2
      have h3 : ApiResult.error 500 m = ApiResult.ok records := h2
      cases h3
    | ok rs =>
      rw [ho] at h2
      have h3 : ApiResult.ok rs = ApiResult.ok records := h2
      cases h3
      have hlen := orchestrateAux_length oracle
        (summaries.take (cleanMaxOf body)).length
        (summaries.take (cleanMaxOf body)) 0 records le_rfl ho
      have hrange := sanitizeMaxResults_range body.maxResults
      constructor
      · rw [hlen, List.length_take]
        omega
      · rw [hlen, List.length_take]
        unfold cleanMaxOf
        omega

/-- C4 amended witness: a concrete successful one-summary run. -/
theorem returned_records_respect_ceiling_witness :
    [toRecord bareSummary none].length ≤ cleanMaxOf okPageBody ∧
    [toRecord bareSummary none].length ≤ 60 :=
  returned_records_respect_ceiling okPageBody
    [SearchResponse.payload "OK" none [bareSummary] none]
    (fun _ => notFoundDetailResponse) [toRecord bareSummary none] rfl

/-- C10: on a valid body, a first page answering `ZERO_RESULTS` with an
empty result list and no continuation token yields a success response with
an empty results list, for every detail oracle: no error is raised and no
detail fetch can influence the outcome. -/
theorem zero_results_first_page_ok (body : RequestBody) (em : Option String)
    (oracle : Nat → DetailResponse) (hv : requestValid body = true) :
    POST body [SearchResponse.payload "ZERO_RESULTS" em [] none] oracle =
      ApiResult.ok [] := by
  rw [POST_eq_of_valid body _ oracle hv]
  have hw : walkerGo (cleanMaxOf body) []
      [SearchResponse.payload "ZERO_RESULTS" em [] none] = WalkerOutcome.done [] := rfl
  rw [hw]
  show (match orchestrateGo oracle (List.take (cleanMaxOf body) []) 0 with
    | Except.error m => ApiResult.error 500 m
    | Except.ok records => ApiResult.ok records) = ApiResult.ok []
  rw [List.take_nil]
  rfl

/-- C10 witness: a concrete empty-result run. -/
theorem zero_results_first_page_ok_witness :
    POST okPageBody [SearchResponse.payload "ZERO_RESULTS" none [] none]
      (fun _ => deniedDetailResponse) = ApiResult.ok [] :=
  zero_results_first_page_ok okPageBody none (fun _ => deniedDetailResponse) rfl
